import Mathlib

/-!
Shallow embedding of the M3 matcher core (`src/business/matcher.go` of
awishformore/m3) together with the order/book/twin model that the matcher
uses.  Token identifiers (`common.Address`) are modelled as naturals,
`*big.Int` values as `Int`, fallible calls as `Except String`.
Go's `big.Int.Div` is Euclidean division (documented: `0 <= r < |y|`),
which is `Int.ediv` in Lean.
-/

namespace M3

/-- Token identifiers (`common.Address`); an opaque identifier. -/
abbrev Address := Nat

/-- Modelled from the spec: the `model.Order` value type is not under `src/`.
Spec section 3: buy token, sell token, buy amount, sell amount, with
arbitrary-precision integer amounts. -/
structure Order where
  BuyToken : Address
  SellToken : Address
  BuyAmount : Int
  SellAmount : Int
deriving DecidableEq, Repr

/-- Modelled from the spec: `Order.Rate` is not under `src/`.  Spec section 3:
derived `rate = sellAmount / buyAmount`, an exact (arbitrary-precision)
ratio, written with `Rat.divInt` so that it evaluates; `Order.Rate_def`
below certifies it is rational division. -/
def Order.Rate (o : Order) : ℚ := Rat.divInt o.SellAmount o.BuyAmount

/-- The rate is the quotient of the sell amount by the buy amount in ℚ. -/
theorem Order.Rate_def (o : Order) :
    o.Rate = (o.SellAmount : ℚ) / (o.BuyAmount : ℚ) :=
  Rat.divInt_eq_div o.SellAmount o.BuyAmount

/-- The `Book` aggregate: base/quote tokens plus bid and ask collections.
The `Base`/`Quote` fields are the ones `getBooks` in `matcher.go` sets; the
bid/ask collections are modelled from spec section 4.1 (insertion-ordered,
best-first retrieval). -/
structure Book where
  Base : Address
  Quote : Address
  bids : List Order
  asks : List Order
deriving DecidableEq, Repr

/-- Modelled from the spec: `Book.AddBid` is not under `src/`.  Spec 4.1:
insert the order into the bid collection; ties at equal rate are broken by
insertion order (stable). -/
def Book.AddBid (b : Book) (o : Order) : Book :=
  { b with bids := b.bids ++ [o] }

/-- Modelled from the spec: `Book.AddAsk` is not under `src/`.  Spec 4.1:
insert the order into the ask collection (stable). -/
def Book.AddAsk (b : Book) (o : Order) : Book :=
  { b with asks := b.asks ++ [o] }

/-- Select the best order of a list under a strict `better` test and return
it together with the rest of the list.  The first element among equals wins,
which models the stable tie-break of spec 4.1.  Returns `none` exactly on the
empty list (the `EmptyBook` failure). -/
def pickBest (better : Order → Order → Bool) : List Order → Option (Order × List Order)
  | [] => none
  | o :: rest =>
    match pickBest better rest with
    | none => some (o, rest)
    | some (b, rem) => if better b o then some (b, o :: rem) else some (o, rest)

/-- Modelled from the spec: `Book.HighestBid` is not under `src/`.  Spec 4.1:
removes and returns the bid with the greatest rate; fails with `EmptyBook`
(here `none`) when no bids remain. -/
def Book.HighestBid (b : Book) : Option (Order × Book) :=
  (pickBest (fun x y => decide (y.Rate < x.Rate)) b.bids).map
    (fun p => (p.1, { b with bids := p.2 }))

/-- Modelled from the spec: `Book.LowestAsk` is not under `src/`.  Spec 4.1:
removes and returns the ask with the smallest rate; fails with `EmptyBook`
(here `none`) when no asks remain. -/
def Book.LowestAsk (b : Book) : Option (Order × Book) :=
  (pickBest (fun x y => decide (x.Rate < y.Rate)) b.asks).map
    (fun p => (p.1, { b with asks := p.2 }))

/-- Modelled from the spec: one fill of `model.Twin` (token plus signed
amount), not under `src/`; spec section 3. -/
structure Fill where
  Token : Address
  Amount : Int
deriving DecidableEq, Repr

/-- Modelled from the spec: `model.Twin` is not under `src/`.  Spec section 3:
two order fills and a settlement cost. -/
structure Twin where
  First : Fill
  Second : Fill
  Cost : Int
deriving DecidableEq, Repr

/-- The book map of `getBooks` (`map[string]*Book` keyed by
`BuyToken.Hex() + SellToken.Hex()`); hex strings of addresses have fixed
width, so the concatenated key is equivalent to the ordered pair of
addresses.  Modelled as an insertion-ordered association list with unique
keys, like a Go map. -/
abbrev BookSet := List ((Address × Address) × Book)

/-- Map lookup for `BookSet` (first matching key). -/
def lookupBook : BookSet → Address × Address → Option Book
  | [], _ => none
  | (k2, b) :: rest, k => if k2 = k then some b else lookupBook rest k

/-- Map update for `BookSet`: replace the book stored under the first
occurrence of the key (keys are unique by construction, like in a Go map). -/
def updateBook : BookSet → Address × Address → Book → BookSet
  | [], _, _ => []
  | (k2, b) :: rest, k, nb => if k2 = k then (k2, nb) :: rest else (k2, b) :: updateBook rest k nb

/-- One iteration of the order-placement loop of `getBooks`
(`matcher.go` lines 189-216): add as bid under the `(buy, sell)` key if a
book exists, else as ask under the `(sell, buy)` key if a book exists, else
create a bid book for `(buy, sell)` seeded with this order. -/
def placeOrder (s : BookSet) (o : Order) : BookSet :=
  let bidPair := (o.BuyToken, o.SellToken)
  let askPair := (o.SellToken, o.BuyToken)
  match lookupBook s bidPair with
  | some bk => updateBook s bidPair (bk.AddBid o)
  | none =>
    match lookupBook s askPair with
    | some bk => updateBook s askPair (bk.AddAsk o)
    | none => s ++ [(bidPair, (Book.mk o.BuyToken o.SellToken [] []).AddBid o)]

/-- The successful body of `getBooks`: fold the orders into the book map and
return the books (the Go map's value set; iteration order is irrelevant to
every property below, we keep insertion order). -/
def getBooksList (orders : List Order) : List Book :=
  ((orders.foldl placeOrder []).map (fun p => p.2))

/-- `getBooks` (`matcher.go` lines 177-225), with the market's `Orders()`
result passed in as an `Except`: a market failure is wrapped and propagated,
otherwise the books are built. -/
def getBooks (ordersResult : Except String (List Order)) : Except String (List Book) :=
  match ordersResult with
  | .error e => .error ("could not retrieve orders from market (" ++ e ++ ")")
  | .ok orders => .ok (getBooksList orders)

/-- `Max` (`matcher.go` lines 319-328): the maximum of three big ints,
written exactly as the source's two guarded returns plus fallback. -/
def Max (x y z : Int) : Int :=
  if x ≥ y ∧ x ≥ z then x
  else if y ≥ x ∧ y ≥ z then y
  else z

/-- Result of one iteration of the inner matching loop of `arbitrage`
(`matcher.go` lines 237-313): `next = none` means the book is abandoned
(`break` or `continue BookLoop`), `next = some b` means the loop runs again
on the reduced book.  `queried` records the tokens whose balance was
requested, `twins` the twins recorded during the iteration (the source
records none: the execution branches are TODO placeholders). -/
structure IterResult where
  next : Option Book
  queried : List Address
  twins : List Twin
deriving DecidableEq, Repr

/-- One iteration of the inner loop of `arbitrage` (`matcher.go` lines
237-313), with the `Atomic.Balance` collaborator passed in as a function. -/
def arbIter (balance : Address → Except String Int) (book : Book) : IterResult :=
  match book.HighestBid with
  | none => ⟨none, [], []⟩
  | some (bid, book1) =>
    match book1.LowestAsk with
    | none => ⟨none, [], []⟩
    | some (ask, book2) =>
      if bid.Rate ≤ ask.Rate then ⟨none, [], []⟩
      else if bid.BuyToken ≠ ask.SellToken then ⟨none, [], []⟩
      else if bid.SellToken ≠ ask.BuyToken then ⟨none, [], []⟩
      else
        match balance bid.BuyToken with
        | .error _ => ⟨none, [bid.BuyToken], []⟩
        | .ok baseAvailable =>
          match balance bid.SellToken with
          | .error _ => ⟨none, [bid.BuyToken, bid.SellToken], []⟩
          | .ok quoteAvailable =>
            if Max baseAvailable bid.BuyAmount ask.SellAmount = 0 ∧
                (Max quoteAvailable bid.SellAmount ask.BuyAmount * ask.SellAmount).ediv
                  ask.BuyAmount = 0 then
              ⟨none, [bid.BuyToken, bid.SellToken], []⟩
            else ⟨some book2, [bid.BuyToken, bid.SellToken], []⟩

/-- Length of `pickBest`'s remainder: extraction removes exactly one order. -/
theorem pickBest_length (better : Order → Order → Bool) :
    ∀ (l : List Order) (o : Order) (rem : List Order),
      pickBest better l = some (o, rem) → rem.length + 1 = l.length := by
  intro l
  induction l with
  | nil => intro o rem h; simp [pickBest] at h
  | cons hd tl ih =>
    intro o rem h
    simp only [pickBest] at h
    cases h2 : pickBest better tl with
    | none =>
      rw [h2] at h
      cases h
      simp
    | some p =>
      rw [h2] at h
      obtain ⟨b, rem2⟩ := p
      by_cases hb : better b hd
      · simp [hb] at h
        obtain ⟨h3, h4⟩ := h
        subst h3; subst h4
        have := ih b rem2 h2
        simp [List.length_cons]
        omega
      · simp [hb] at h
        obtain ⟨h3, h4⟩ := h
        subst h3; subst h4
        simp

/-- `HighestBid` removes exactly one bid and leaves the rest of the book. -/
theorem HighestBid_shape (b : Book) (bid : Order) (b1 : Book)
    (h : b.HighestBid = some (bid, b1)) :
    b1.bids.length + 1 = b.bids.length ∧ b1.asks = b.asks := by
  unfold Book.HighestBid at h
  cases h2 : pickBest (fun x y => decide (y.Rate < x.Rate)) b.bids with
  | none => rw [h2] at h; simp at h
  | some p =>
    rw [h2] at h
    obtain ⟨o, rem⟩ := p
    simp at h
    obtain ⟨h3, h4⟩ := h
    subst h4
    exact ⟨pickBest_length _ _ _ _ h2, rfl⟩

/-- `LowestAsk` removes exactly one ask and leaves the rest of the book. -/
theorem LowestAsk_shape (b : Book) (ask : Order) (b1 : Book)
    (h : b.LowestAsk = some (ask, b1)) :
    b1.asks.length + 1 = b.asks.length ∧ b1.bids = b.bids := by
  unfold Book.LowestAsk at h
  cases h2 : pickBest (fun x y => decide (x.Rate < y.Rate)) b.asks with
  | none => rw [h2] at h; simp at h
  | some p =>
    rw [h2] at h
    obtain ⟨o, rem⟩ := p
    simp at h
    obtain ⟨h3, h4⟩ := h
    subst h4
    exact ⟨pickBest_length _ _ _ _ h2, rfl⟩

/-- When an iteration of the inner loop continues, it has removed exactly one
bid and one ask from the book. -/
theorem arbIter_next_shape (balance : Address → Except String Int) (book b2 : Book)
    (q : List Address) (t : List Twin)
    (h : arbIter balance book = ⟨some b2, q, t⟩) :
    b2.bids.length + 1 = book.bids.length ∧ b2.asks.length + 1 = book.asks.length := by
  unfold arbIter at h
  split at h
  · simp at h
  · rename_i bid book1 h1
    split at h
    · simp at h
    · rename_i ask book2 h2
      split at h
      · simp at h
      · split at h
        · simp at h
        · split at h
          · simp at h
          · split at h
            · simp at h
            · rename_i baseAvailable h3
              split at h
              · simp at h
              · rename_i quoteAvailable h4
                split at h
                · simp at h
                · simp only [IterResult.mk.injEq, Option.some.injEq] at h
                  obtain ⟨h5, -, -⟩ := h
                  subst h5
                  have hb := HighestBid_shape book bid book1 h1
                  have ha := LowestAsk_shape book1 ask book2 h2
                  refine ⟨?_, ?_⟩
                  · rw [ha.2]; exact hb.1
                  · rw [← hb.2]; exact ha.1

/-- The inner `for` loop of `arbitrage` for one book (`matcher.go` lines
237-313): iterate `arbIter` until the book is abandoned.  Returns the twins
recorded and the balance queries issued while processing this book.
Terminates because every continuing iteration removes one bid and one ask. -/
def processBook (balance : Address → Except String Int) (book : Book) :
    List Twin × List Address :=
  match h : arbIter balance book with
  | ⟨none, q, t⟩ => (t, q)
  | ⟨some b2, q, t⟩ =>
    let r := processBook balance b2
    (t ++ r.1, q ++ r.2)
termination_by book.bids.length + book.asks.length
decreasing_by
  have := arbIter_next_shape balance book b2 q t h
  omega

/-- The `BookLoop` of `arbitrage` (`matcher.go` lines 233-314): process each
book in turn, accumulating recorded twins and issued balance queries. -/
def arbitrageRun (balance : Address → Except String Int) (books : List Book) :
    List Twin × List Address :=
  books.foldl
    (fun acc b =>
      let r := processBook balance b
      (acc.1 ++ r.1, acc.2 ++ r.2))
    ([], [])

/-- `arbitrage` (`matcher.go` lines 227-317): starts from an empty twin list,
runs the book loop, and returns the twins with a nil error (the function has
no failing return path). -/
def arbitrage (balance : Address → Except String Int) (books : List Book) :
    Except String (List Twin) :=
  .ok (arbitrageRun balance books).1

/-- First-occurrence add into the per-token net-change map of the run loop
(`matcher.go` lines 137-151): create the entry at zero if missing, then add
the fill amount. -/
def bump : List (Address × Int) → Address → Int → List (Address × Int)
  | [], a, amt => [(a, 0 + amt)]
  | (k, v) :: rest, a, amt =>
    if k = a then (k, v + amt) :: rest else (k, v) :: bump rest a amt

/-- The per-cycle aggregation of the run loop (`matcher.go` lines 129-152):
total settlement cost and per-token net change over all twins. -/
def aggregate (twins : List Twin) : Int × List (Address × Int) :=
  twins.foldl
    (fun acc twin =>
      let ch1 := bump acc.2 twin.First.Token twin.First.Amount
      let ch2 := bump ch1 twin.Second.Token twin.Second.Amount
      (acc.1 + twin.Cost, ch2))
    (0, [])

/-- All orders held by a book: its bids followed by its asks. -/
def bookOrders (b : Book) : List Order := b.bids ++ b.asks

/-- All orders held across a book map. -/
def setOrders (s : BookSet) : List Order := (s.map (fun p => bookOrders p.2)).flatten

/-- All orders held across a list of books. -/
def allOrders (books : List Book) : List Order := (books.map bookOrders).flatten

/-- The two events the run loop waits on (`matcher.go` lines 101-172): the
stop signal and a refresh tick, the latter carrying the result the market
returns for `Orders()` on that cycle. -/
inductive Event where
  | stop : Event
  | refresh (ordersResult : Except String (List Order)) : Event
deriving Repr

/-- One refresh cycle of the run loop (`matcher.go` lines 111-169): `none`
when the cycle is abandoned after a logged error (`getBooks` failure or
`arbitrage` failure), otherwise the aggregated cycle summary. -/
def runCycle (balance : Address → Except String Int)
    (ordersResult : Except String (List Order)) :
    Option (Int × List (Address × Int)) :=
  match getBooks ordersResult with
  | .error _ => none
  | .ok books =>
    match arbitrage balance books with
    | .error _ => none
    | .ok twins => some (aggregate twins)

/-- The run loop (`matcher.go` lines 101-172) over a finite schedule of
events: returns the cycle summaries of the refresh events handled (in order)
and whether the loop exited.  It exits exactly at the first stop signal;
events after it are not handled.  An empty remainder means the loop is still
waiting for the next event. -/
def runLoop (balance : Address → Except String Int) :
    List Event → List (Option (Int × List (Address × Int))) × Bool
  | [] => ([], false)
  | Event.stop :: _ => ([], true)
  | Event.refresh r :: rest =>
    let c := runCycle balance r
    let rec2 := runLoop balance rest
    (c :: rec2.1, rec2.2)

/-- Modelled from the spec words (refinement comparison only): spec 4.3 step 6
prescribes `quoteAsBase = quoteCandidate * ask.sellAmount / ask.buyAmount`
with truncating integer division, which is `Int.tdiv`; the source's
`big.Int.Div` is Euclidean division. -/
def quoteAsBaseSpec (quoteCandidate : Int) (ask : Order) : Int :=
  Int.tdiv (quoteCandidate * ask.SellAmount) ask.BuyAmount

/-- A balance oracle that always reports an ample balance. -/
def balOK : Address → Except String Int := fun _ => .ok 1000

/-- Spec scenario 1 bid: buy 100 of token 0 for 50 of token 1. -/
def scenario1Bid : Order := ⟨0, 1, 100, 50⟩

/-- Spec scenario 1 ask: sell 80 of token 0 for 30 of token 1. -/
def scenario1Ask : Order := ⟨1, 0, 30, 80⟩

/-- Spec scenario 1 book: one bid and one ask on the pair (0, 1). -/
def scenario1Book : Book := ⟨0, 1, [scenario1Bid], [scenario1Ask]⟩

/-- An order whose buy amount is zero (invalid per the spec invariant). -/
def zeroOrder : Order := ⟨0, 1, 0, 5⟩

/-- Spec scenario 3 style book: bid rate 3/10, ask rate 5/10 — no crossing. -/
def book5 : Book := ⟨0, 1, [⟨0, 1, 10, 3⟩], [⟨1, 0, 10, 5⟩]⟩

/-- A book whose best pair crosses but whose ask sells token 2 instead of the
bid's buy token 0, with a further bid left in the book. -/
def book7 : Book := ⟨0, 1, [⟨0, 1, 10, 50⟩, ⟨0, 1, 10, 20⟩], [⟨1, 2, 10, 5⟩]⟩

/-- A crossed, aligned book: bid rate 5, ask rate 1/2. -/
def book10 : Book := ⟨0, 1, [⟨0, 1, 10, 50⟩], [⟨1, 0, 20, 10⟩]⟩

/-- Bid with negative amounts: rate (-1)/(-1) = 1. -/
def bid8 : Order := ⟨0, 1, -1, -1⟩

/-- Ask with negative amounts: rate (-1)/(-3) = 1/3. -/
def ask8 : Order := ⟨1, 0, -3, -1⟩

/-- Crossed aligned book built from `bid8` and `ask8`. -/
def book8 : Book := ⟨0, 1, [bid8], [ask8]⟩

/-- Balance oracle for `book8`: base balance 0, quote balance 1. -/
def bal8 : Address → Except String Int := fun a => if a = 0 then .ok 0 else .ok 1

/-- Ask for the zero-tradable witness: rate 0/2 = 0. -/
def ask8w : Order := ⟨1, 0, 2, 0⟩

/-- Crossed aligned book built from `bid8` and `ask8w`. -/
def book8w : Book := ⟨0, 1, [bid8], [ask8w]⟩

/-- Balance oracle for `book8w`: base balance -3, quote balance 1. -/
def bal8w : Address → Except String Int := fun a => if a = 0 then .ok (-3) else .ok 1

/-- When the iteration abandons the book, `processBook` returns that
iteration's twins and queries. -/
theorem processBook_abandon (balance : Address → Except String Int) (book : Book)
    (q : List Address) (t : List Twin) (h : arbIter balance book = ⟨none, q, t⟩) :
    processBook balance book = (t, q) := by
  rw [processBook]
  split
  · rename_i q2 t2 h2
    rw [h] at h2
    cases h2
    rfl
  · rename_i b2 q2 t2 h2
    rw [h] at h2
    simp at h2

/-- When the iteration continues, `processBook` accumulates this iteration's
twins and queries in front of the rest of the processing. -/
theorem processBook_step (balance : Address → Except String Int) (book b2 : Book)
    (q : List Address) (t : List Twin) (h : arbIter balance book = ⟨some b2, q, t⟩) :
    processBook balance book =
      (t ++ (processBook balance b2).1, q ++ (processBook balance b2).2) := by
  rw [processBook]
  split
  · rename_i q2 t2 h2
    rw [h] at h2
    simp at h2
  · rename_i b3 q2 t2 h2
    rw [h] at h2
    cases h2
    rfl

/-- The source never records a twin in any iteration: every branch of the
inner loop body leaves the twin list untouched (the execution code is a TODO
placeholder). -/
theorem arbIter_twins_nil (balance : Address → Except String Int) (book : Book) :
    (arbIter balance book).twins = [] := by
  unfold arbIter
  split
  · rfl
  · split
    · rfl
    · split
      · rfl
      · split
        · rfl
        · split
          · rfl
          · split
            · rfl
            · split
              · rfl
              · split
                · rfl
                · rfl

/-- No book ever yields a twin: the whole inner loop records nothing. -/
theorem processBook_twins_nil (balance : Address → Except String Int) (book : Book) :
    (processBook balance book).1 = [] := by
  generalize hn : book.bids.length + book.asks.length = n
  induction n using Nat.strong_induction_on generalizing book with
  | _ n ih =>
    cases h : arbIter balance book with
    | mk next q t =>
      have ht : t = [] := by
        have := arbIter_twins_nil balance book
        rw [h] at this
        exact this
      cases next with
      | none =>
        rw [processBook_abandon balance book q t h, ht]
      | some b2 =>
        rw [processBook_step balance book b2 q t h, ht]
        have hs := arbIter_next_shape balance book b2 q t h
        have := ih (b2.bids.length + b2.asks.length) (by omega) b2 rfl
        simp [this]

/-- The book-loop fold starting from any accumulator only appends to it. -/
theorem arbitrageRun_acc (balance : Address → Except String Int) :
    ∀ (books : List Book) (acc : List Twin × List Address),
      books.foldl
          (fun acc b =>
            let r := processBook balance b
            (acc.1 ++ r.1, acc.2 ++ r.2)) acc =
        (acc.1 ++ (arbitrageRun balance books).1, acc.2 ++ (arbitrageRun balance books).2) := by
  intro books
  induction books with
  | nil => intro acc; simp [arbitrageRun]
  | cons b bs ih =>
    intro acc
    simp only [List.foldl_cons]
    rw [ih]
    unfold arbitrageRun
    simp only [List.foldl_cons]
    rw [ih ((([] : List Twin) ++ (processBook balance b).1, ([] : List Address) ++ (processBook balance b).2))]
    simp
    exact ⟨rfl, rfl⟩

/-- The book loop never accumulates a twin across any list of books. -/
theorem arbitrageRun_twins_nil (balance : Address → Except String Int) (books : List Book) :
    (arbitrageRun balance books).1 = [] := by
  induction books with
  | nil => rfl
  | cons b bs ih =>
    unfold arbitrageRun
    simp only [List.foldl_cons]
    rw [arbitrageRun_acc]
    simp [processBook_twins_nil, ih]

/-- Processing a concatenation of book lists processes both parts in order:
books are independent of one another. -/
theorem arbitrageRun_append (balance : Address → Except String Int)
    (bs1 bs2 : List Book) :
    arbitrageRun balance (bs1 ++ bs2) =
      ((arbitrageRun balance bs1).1 ++ (arbitrageRun balance bs2).1,
       (arbitrageRun balance bs1).2 ++ (arbitrageRun balance bs2).2) := by
  unfold arbitrageRun
  rw [List.foldl_append]
  rw [arbitrageRun_acc]
  rfl

/-- The orders across a book map split at its head entry. -/
theorem setOrders_cons (p : (Address × Address) × Book) (rest : BookSet) :
    (setOrders (p :: rest) : Multiset Order) =
      (bookOrders p.2 : Multiset Order) + (setOrders rest : Multiset Order) := by
  simp [setOrders, ← Multiset.coe_add]

/-- Adding a bid adds exactly that order to a book's orders. -/
theorem bookOrders_AddBid (bk : Book) (o : Order) :
    (bookOrders (bk.AddBid o) : Multiset Order) =
      (bookOrders bk : Multiset Order) + {o} := by
  simp only [bookOrders, Book.AddBid, ← Multiset.coe_add, Multiset.coe_singleton]
  abel

/-- Adding an ask adds exactly that order to a book's orders. -/
theorem bookOrders_AddAsk (bk : Book) (o : Order) :
    (bookOrders (bk.AddAsk o) : Multiset Order) =
      (bookOrders bk : Multiset Order) + {o} := by
  simp only [bookOrders, Book.AddAsk, ← Multiset.coe_add, Multiset.coe_singleton]
  abel

/-- Updating the book stored under a present key exchanges the old book's
orders for the new book's orders. -/
theorem setOrders_updateBook (k : Address × Address) (bk nb : Book) :
    ∀ (s : BookSet), lookupBook s k = some bk →
      (setOrders (updateBook s k nb) : Multiset Order) + (bookOrders bk : Multiset Order) =
        (setOrders s : Multiset Order) + (bookOrders nb : Multiset Order) := by
  intro s
  induction s with
  | nil => intro h; simp [lookupBook] at h
  | cons p rest ih =>
    intro h
    obtain ⟨k2, b⟩ := p
    by_cases hk : k2 = k
    · subst hk
      rw [lookupBook] at h
      simp at h
      subst h
      rw [updateBook]
      rw [if_pos rfl]
      rw [setOrders_cons, setOrders_cons]
      abel
    · rw [lookupBook, if_neg hk] at h
      rw [updateBook]
      rw [if_neg hk]
      rw [setOrders_cons, setOrders_cons]
      have h2 := ih h
      rw [add_assoc, h2, ← add_assoc]

/-- Placing one order adds exactly that order to the orders held across the
book map. -/
theorem setOrders_placeOrder (s : BookSet) (o : Order) :
    (setOrders (placeOrder s o) : Multiset Order) =
      (setOrders s : Multiset Order) + {o} := by
  simp only [placeOrder]
  cases h1 : lookupBook s (o.BuyToken, o.SellToken) with
  | some bk =>
    simp only
    have h2 := setOrders_updateBook (o.BuyToken, o.SellToken) bk (bk.AddBid o) s h1
    rw [bookOrders_AddBid] at h2
    have h3 : (setOrders (updateBook s (o.BuyToken, o.SellToken) (bk.AddBid o)) : Multiset Order) +
        (bookOrders bk : Multiset Order) =
        ((setOrders s : Multiset Order) + {o}) + (bookOrders bk : Multiset Order) := by
      rw [h2]
      abel
    exact add_right_cancel h3
  | none =>
    simp only
    cases h2 : lookupBook s (o.SellToken, o.BuyToken) with
    | some bk =>
      simp only
      have h3 := setOrders_updateBook (o.SellToken, o.BuyToken) bk (bk.AddAsk o) s h2
      rw [bookOrders_AddAsk] at h3
      have h4 : (setOrders (updateBook s (o.SellToken, o.BuyToken) (bk.AddAsk o)) : Multiset Order) +
          (bookOrders bk : Multiset Order) =
          ((setOrders s : Multiset Order) + {o}) + (bookOrders bk : Multiset Order) := by
        rw [h3]
        abel
      exact add_right_cancel h4
    | none =>
      simp only
      simp [setOrders, bookOrders, Book.AddBid, ← Multiset.coe_add]

/-- Folding orders into a book map adds exactly those orders to the orders
held across the map. -/
theorem setOrders_foldl :
    ∀ (orders : List Order) (s : BookSet),
      (setOrders (orders.foldl placeOrder s) : Multiset Order) =
        (setOrders s : Multiset Order) + (orders : Multiset Order) := by
  intro orders
  induction orders with
  | nil => intro s; simp
  | cons o os ih =>
    intro s
    simp only [List.foldl_cons]
    rw [ih, setOrders_placeOrder]
    rw [← Multiset.cons_coe, ← Multiset.singleton_add]
    abel

/-- The orders across the produced book list are the orders across the final
book map. -/
theorem allOrders_getBooksList (orders : List Order) :
    allOrders (getBooksList orders) = setOrders (orders.foldl placeOrder []) := by
  simp [allOrders, getBooksList, setOrders, List.map_map]
  rfl

/-- The run loop reports an exit exactly when the event schedule holds a stop
signal. -/
theorem runLoop_exit_iff (balance : Address → Except String Int) (events : List Event) :
    (runLoop balance events).2 = true ↔ Event.stop ∈ events := by
  induction events with
  | nil => simp [runLoop]
  | cons e rest ih =>
    cases e with
    | stop => simp [runLoop]
    | refresh r => simp [runLoop, ih]

/-- Claim C1: the claim says a crossed pair yields a recorded Twin; the code,
however, records no Twin for any input: every execution branch of
`arbitrage` is a TODO placeholder, so at the spec's scenario-1 book the
matcher returns an empty twin list (and a nil error). -/
theorem arbitrage_scenario1_no_twin :
    arbitrage balOK [scenario1Book] = Except.ok ([] : List Twin) := by
  have h : arbIter balOK scenario1Book = ⟨none, [], []⟩ := by decide
  have hp := processBook_abandon balOK scenario1Book [] [] h
  simp [arbitrage, arbitrageRun, hp]

/-- Claim C2: for every input list of books and every balance oracle,
`arbitrage` returns an empty twin list and a nil error, so the run loop's
arbitrage-error branch is unreachable and every cycle on successfully
retrieved orders aggregates to zero total cost and an empty per-token
net-change mapping. -/
theorem arbitrage_always_empty :
    ∀ (balance : Address → Except String Int) (books : List Book) (orders : List Order),
      arbitrage balance books = Except.ok ([] : List Twin) ∧
      runCycle balance (Except.ok orders) = some ((0 : Int), ([] : List (Address × Int))) := by
  intro balance books orders
  have ha : ∀ bs : List Book, arbitrage balance bs = Except.ok ([] : List Twin) := by
    intro bs
    unfold arbitrage
    rw [arbitrageRun_twins_nil]
  refine ⟨ha books, ?_⟩
  have hb := ha (getBooksList orders)
  simp [runCycle, getBooks, hb, aggregate]

/-- Claim C3: the book builder places each order into exactly one book — the
orders across the produced books are exactly the input orders — and each
placement adds the order as a bid when a book is registered under the
(buy, sell) key, else as an ask when one is registered under the
(sell, buy) key, else creates a fresh book with base = buy and
quote = sell, seeded with the order as a bid and registered under the
(buy, sell) key. -/
theorem getBooks_places_each_order_once :
    ∀ (orders : List Order) (s : BookSet) (o : Order),
      (allOrders (getBooksList orders) : Multiset Order) = (orders : Multiset Order) ∧
      placeOrder s o =
        Option.getD
          ((lookupBook s (o.BuyToken, o.SellToken)).map
            (fun bk => updateBook s (o.BuyToken, o.SellToken) (bk.AddBid o)))
          (Option.getD
            ((lookupBook s (o.SellToken, o.BuyToken)).map
              (fun bk => updateBook s (o.SellToken, o.BuyToken) (bk.AddAsk o)))
            (s ++ [((o.BuyToken, o.SellToken),
              (Book.mk o.BuyToken o.SellToken [] []).AddBid o)])) := by
  intro orders s o
  constructor
  · rw [allOrders_getBooksList, setOrders_foldl]
    simp [setOrders]
  · simp only [placeOrder]
    cases h1 : lookupBook s (o.BuyToken, o.SellToken) with
    | some bk => simp
    | none =>
      simp only
      cases h2 : lookupBook s (o.SellToken, o.BuyToken) with
      | some bk => simp
      | none => simp

/-- Claim C4: the candidate base-side trade size is the greatest of the
available base balance, the bid's buy amount and the ask's sell amount; the
quote-side candidate analogously; and `Max` returns the greatest of its
three arguments. -/
theorem candidate_sizes_are_greatest :
    ∀ (x y z baseAvailable quoteAvailable : Int) (bid ask : Order),
      Max baseAvailable bid.BuyAmount ask.SellAmount =
        max baseAvailable (max bid.BuyAmount ask.SellAmount) ∧
      Max quoteAvailable bid.SellAmount ask.BuyAmount =
        max quoteAvailable (max bid.SellAmount ask.BuyAmount) ∧
      Max x y z = max x (max y z) := by
  have hmax : ∀ a b c : Int, Max a b c = max a (max b c) := by
    intro a b c
    simp only [Max, max_def]
    split_ifs <;> omega
  intro x y z ba qa bid ask
  exact ⟨hmax _ _ _, hmax _ _ _, hmax _ _ _⟩

/-- Claim C5: when the extracted pair does not cross (bid rate at most the
ask rate) the matcher stops processing the book at once: no balance query is
attempted for the pair and no twin is produced from the book. -/
theorem no_crossing_stops_book :
    ∀ (balance : Address → Except String Int) (book : Book) (bid ask : Order) (b1 b2 : Book),
      book.HighestBid = some (bid, b1) →
      b1.LowestAsk = some (ask, b2) →
      bid.Rate ≤ ask.Rate →
      arbIter balance book = ⟨none, [], []⟩ ∧
      processBook balance book = ([], []) := by
  intro balance book bid ask b1 b2 h1 h2 h3
  have hIter : arbIter balance book = ⟨none, [], []⟩ := by
    simp only [arbIter, h1, h2]
    rw [if_pos h3]
  exact ⟨hIter, processBook_abandon balance book [] [] hIter⟩

/-- Witness for claim C5 at the spec's scenario 3 rates (bid 3/10, ask 5/10,
no crossing): the book is abandoned with no balance query and no twin. -/
theorem no_crossing_stops_book_witness :
    arbIter balOK book5 = ⟨none, [], []⟩ ∧ processBook balOK book5 = ([], []) :=
  no_crossing_stops_book balOK book5 ⟨0, 1, 10, 3⟩ ⟨1, 0, 10, 5⟩
    ⟨0, 1, [], [⟨1, 0, 10, 5⟩]⟩ ⟨0, 1, [], []⟩ (by decide) (by decide) (by decide)

/-- Claim C6: the claim says zero-buy-amount orders are rejected at
ingestion; the code has no such rejection: an order with buy amount zero is
placed into a produced book as a bid. -/
theorem zero_buy_amount_not_rejected :
    zeroOrder.BuyAmount = 0 ∧
    getBooks (Except.ok [zeroOrder]) = Except.ok [Book.mk 0 1 [zeroOrder] []] ∧
    zeroOrder ∈ (Book.mk 0 1 [zeroOrder] []).bids := by
  refine ⟨rfl, rfl, ?_⟩
  simp

/-- Claim C7: a crossed pair with mismatched tokens makes the matcher abandon
the whole remaining book — before any balance query and with no twin from
that book, however many further orders it holds — while books are processed
independently, so the other books of the cycle are still processed. -/
theorem token_mismatch_abandons_book :
    ∀ (balance : Address → Except String Int) (book : Book) (bid ask : Order) (b1 b2 : Book)
      (bs1 bs2 : List Book),
      book.HighestBid = some (bid, b1) →
      b1.LowestAsk = some (ask, b2) →
      ¬ bid.Rate ≤ ask.Rate →
      bid.BuyToken ≠ ask.SellToken ∨ bid.SellToken ≠ ask.BuyToken →
      arbIter balance book = ⟨none, [], []⟩ ∧
      processBook balance book = ([], []) ∧
      arbitrageRun balance (bs1 ++ bs2) =
        ((arbitrageRun balance bs1).1 ++ (arbitrageRun balance bs2).1,
         (arbitrageRun balance bs1).2 ++ (arbitrageRun balance bs2).2) := by
  intro balance book bid ask b1 b2 bs1 bs2 h1 h2 h3 h4
  have hIter : arbIter balance book = ⟨none, [], []⟩ := by
    simp only [arbIter, h1, h2]
    rw [if_neg h3]
    by_cases hbt : bid.BuyToken = ask.SellToken
    · have hst : bid.SellToken ≠ ask.BuyToken := h4.resolve_left (not_not_intro hbt)
      rw [if_neg (not_not_intro hbt), if_pos hst]
    · rw [if_pos hbt]
  exact ⟨hIter, processBook_abandon balance book [] [] hIter,
    arbitrageRun_append balance bs1 bs2⟩

/-- Witness for claim C7: a crossed pair whose ask sells token 2 while the
bid buys token 0, in a book with one further bid: the book yields nothing
and issues no balance query. -/
theorem token_mismatch_abandons_book_witness :
    arbIter balOK book7 = ⟨none, [], []⟩ ∧
    processBook balOK book7 = ([], []) ∧
    arbitrageRun balOK ([] ++ []) =
      ((arbitrageRun balOK []).1 ++ (arbitrageRun balOK []).1,
       (arbitrageRun balOK []).2 ++ (arbitrageRun balOK []).2) :=
  token_mismatch_abandons_book balOK book7 ⟨0, 1, 10, 50⟩ ⟨1, 2, 10, 5⟩
    ⟨0, 1, [⟨0, 1, 10, 20⟩], [⟨1, 2, 10, 5⟩]⟩ ⟨0, 1, [⟨0, 1, 10, 20⟩], []⟩ [] []
    (by decide) (by decide) (by decide) (Or.inl (by decide))

/-- Claim C8 counterexample: at this crossed, token-aligned pair both the
base candidate and the spec's truncating-division quoteAsBase are zero, so
the claim predicts the warn-and-abandon branch; the code divides like
`big.Int.Div` (Euclidean), gets quoteAsBase = 1, and instead continues the
loop on the reduced book. -/
theorem quoteAsBase_truncation_counterexample :
    Max 0 bid8.BuyAmount ask8.SellAmount = 0 ∧
    quoteAsBaseSpec (Max 1 bid8.SellAmount ask8.BuyAmount) ask8 = 0 ∧
    bal8 bid8.BuyToken = Except.ok 0 ∧
    bal8 bid8.SellToken = Except.ok 1 ∧
    ¬ bid8.Rate ≤ ask8.Rate ∧
    bid8.BuyToken = ask8.SellToken ∧
    bid8.SellToken = ask8.BuyToken ∧
    (Max 1 bid8.SellAmount ask8.BuyAmount * ask8.SellAmount).ediv ask8.BuyAmount = 1 ∧
    arbIter bal8 book8 = ⟨some (Book.mk 0 1 [] []), [0, 1], []⟩ :=
  ⟨by decide, by decide, rfl, rfl, by decide, rfl, rfl, by decide, by decide⟩

/-- Claim C8 (amended): with quoteAsBase computed by Euclidean division as in
the source (`big.Int.Div`; it agrees with truncating division on nonnegative
operands): when both the base candidate and quoteAsBase are zero, the
matcher warns and abandons the remaining book, producing no twin from it. -/
theorem zero_tradable_abandons_book :
    ∀ (balance : Address → Except String Int) (book : Book) (bid ask : Order) (b1 b2 : Book)
      (baseAvailable quoteAvailable : Int),
      book.HighestBid = some (bid, b1) →
      b1.LowestAsk = some (ask, b2) →
      ¬ bid.Rate ≤ ask.Rate →
      bid.BuyToken = ask.SellToken →
      bid.SellToken = ask.BuyToken →
      balance bid.BuyToken = Except.ok baseAvailable →
      balance bid.SellToken = Except.ok quoteAvailable →
      Max baseAvailable bid.BuyAmount ask.SellAmount = 0 →
      (Max quoteAvailable bid.SellAmount ask.BuyAmount * ask.SellAmount).ediv ask.BuyAmount = 0 →
      arbIter balance book = ⟨none, [bid.BuyToken, bid.SellToken], []⟩ ∧
      processBook balance book = ([], [bid.BuyToken, bid.SellToken]) := by
  intro balance book bid ask b1 b2 ba qa h1 h2 h3 h4 h5 h6 h7 h8 h9
  have hIter : arbIter balance book = ⟨none, [bid.BuyToken, bid.SellToken], []⟩ := by
    simp only [arbIter, h1, h2]
    rw [if_neg h3, if_neg (not_not_intro h4), if_neg (not_not_intro h5)]
    simp only [h6, h7]
    rw [if_pos (And.intro h8 h9)]
  exact ⟨hIter, processBook_abandon balance book [bid.BuyToken, bid.SellToken] [] hIter⟩

/-- Witness for the amended claim C8: a crossed aligned pair (bid rate 1, ask
rate 0) whose base candidate is zero (all three inputs nonpositive, greatest
zero) and whose Euclidean quoteAsBase is zero: the book is abandoned. -/
theorem zero_tradable_abandons_book_witness :
    arbIter bal8w book8w = ⟨none, [bid8.BuyToken, bid8.SellToken], []⟩ ∧
    processBook bal8w book8w = ([], [bid8.BuyToken, bid8.SellToken]) :=
  zero_tradable_abandons_book bal8w book8w bid8 ask8w
    ⟨0, 1, [], [ask8w]⟩ ⟨0, 1, [], []⟩ (-3) 1
    (by decide) (by decide) (by decide) (by decide) (by decide)
    rfl rfl (by decide) (by decide)

/-- Claim C9: a failing market makes `getBooks` return the wrapped error and
no books; the run loop handles a failed cycle by logging (a `none` summary)
and continuing, and it exits exactly on a stop signal — no cycle error
terminates it. -/
theorem market_failure_and_stop_only_exit :
    ∀ (balance : Address → Except String Int) (msg : String) (events rest : List Event),
      getBooks (Except.error msg) =
        Except.error ("could not retrieve orders from market (" ++ msg ++ ")") ∧
      ((runLoop balance events).2 = true ↔ Event.stop ∈ events) ∧
      runLoop balance (Event.refresh (Except.error msg) :: rest) =
        (none :: (runLoop balance rest).1, (runLoop balance rest).2) := by
  intro balance msg events rest
  exact ⟨rfl, runLoop_exit_iff balance events, rfl⟩

/-- Claim C10: every continuing iteration of the per-book matching loop
removes exactly one bid and one ask, strictly reducing the number of orders
remaining, so the loop terminates. -/
theorem match_loop_strictly_decreases :
    ∀ (balance : Address → Except String Int) (book b2 : Book) (q : List Address)
      (t : List Twin),
      arbIter balance book = ⟨some b2, q, t⟩ →
      b2.bids.length + 1 = book.bids.length ∧
      b2.asks.length + 1 = book.asks.length ∧
      b2.bids.length + b2.asks.length < book.bids.length + book.asks.length := by
  intro balance book b2 q t h
  have hs := arbIter_next_shape balance book b2 q t h
  exact ⟨hs.1, hs.2, by omega⟩

/-- Witness for claim C10: on a crossed aligned one-bid one-ask book the
iteration continues with the book emptied, the order count falling from two
to zero. -/
theorem match_loop_strictly_decreases_witness :
    (Book.mk 0 1 [] []).bids.length + 1 = book10.bids.length ∧
    (Book.mk 0 1 [] []).asks.length + 1 = book10.asks.length ∧
    (Book.mk 0 1 [] []).bids.length + (Book.mk 0 1 [] []).asks.length <
      book10.bids.length + book10.asks.length :=
  match_loop_strictly_decreases balOK book10 (Book.mk 0 1 [] []) [0, 1] [] (by decide)

end M3
